import Mathlib

/-!
Verification of the environment-management module (`asv/environment.py`).

The Python source is shallowly embedded: pure helpers (`match_rule`,
`get_env_name`, `iter_requirement_matrix`) become Lean functions over
association lists modelling Python dicts (lookup takes the last binding,
as `dict` construction lets later keys win); the stateful install
lifecycle of `Environment.install_project` becomes an explicit
state-passing function that also records a trace of the externally
visible steps (checkout, command batches, cache operations, status-file
writes).  Collaborators that live outside the analysed file (the build
cache, the command runner) are passed in as parameters or oracles.

Python regular expressions, as used by `match_rule`, are embedded as a
small syntax tree together with a backtracking matcher that reproduces
`re.match` semantics for the fragment appearing in configuration rules:
literal characters, escaped punctuation characters, character classes
(with ranges and `^`-negation), `.`, alternation `|` with left-to-right
preference, greedy `*` and `+`, a leading `^` (a no-op under
`re.match`) and `$`.  Every construct whose Python meaning the tree
cannot represent — groups, `?`, `\x7bm,n\x7d` repetition, escape
classes such as a backslash followed by a letter or digit (`d`, `w`,
`s`, backreferences, ...), a mid-pattern `^` — is rejected by the
compiler rather than approximated, as are the pattern shapes Python
itself rejects with `re.error` (empty classes, reversed ranges), so
that on every pattern the compiler accepts the matcher agrees with the
program; theorems that quantify over rules restrict to such patterns.
-/

namespace Asv

/-! ### Regular expressions: syntax tree -/

/-- Abstract syntax of the supported Python regex fragment. -/
inductive Regex where
  | emptyRe : Regex
  | chr (c : Char) : Regex
  | anyChr : Regex
  | cls (neg : Bool) (ranges : List (Char × Char)) : Regex
  | seq (a b : Regex) : Regex
  | alt (a b : Regex) : Regex
  | star (a : Regex) : Regex
  | plus (a : Regex) : Regex
  | endAnchor : Regex
deriving DecidableEq, Repr

/-- Character-class membership: the character lies in one of the
ranges, inverted for a negated class (which, as in Python, also matches
the newline character). -/
def charInCls (neg : Bool) (ranges : List (Char × Char)) (c : Char) : Bool :=
  let mem := ranges.any fun p => p.1 ≤ c ∧ c ≤ p.2
  if neg then !mem else mem

/-! ### Regular expressions: backtracking matcher

`reMatchesF fuel r s` returns, in Python backtracking preference order,
the list of suffixes of `s` left over after each way `r` can match a
leading segment of `s`.  `re.match` corresponds to the head of this
list.  Greedy repetition explores longer iterations first and an empty
iteration of `*` last; alternation explores the left branch first. -/

def reMatchesF : Nat → Regex → List Char → List (List Char)
  | 0, _, _ => []
  | fuel+1, r, s =>
    match r with
    | Regex.emptyRe => [s]
    | Regex.chr c =>
      match s with
      | [] => []
      | x :: rest => if x = c then [rest] else []
    | Regex.anyChr =>
      match s with
      | [] => []
      | x :: rest => if x = '\n' then [] else [rest]
    | Regex.cls neg ranges =>
      match s with
      | [] => []
      | x :: rest => if charInCls neg ranges x then [rest] else []
    | Regex.seq a b => (reMatchesF fuel a s).flatMap (reMatchesF fuel b)
    | Regex.alt a b => reMatchesF fuel a s ++ reMatchesF fuel b s
    | Regex.star a =>
      ((reMatchesF fuel a s).filter (fun rem => rem.length < s.length)).flatMap
        (fun rem => reMatchesF fuel (Regex.star a) rem) ++ [s]
    | Regex.plus a => reMatchesF fuel (Regex.seq a (Regex.star a)) s
    | Regex.endAnchor => if s.isEmpty then [s] else []

/-- Size of a regex, used only to budget matcher fuel. -/
def Regex.size : Regex → Nat
  | Regex.seq a b => a.size + b.size + 1
  | Regex.alt a b => a.size + b.size + 1
  | Regex.star a => a.size + 2
  | Regex.plus a => a.size + 4
  | _ => 1

/-- Fuel sufficient for the matcher's recursion depth: along any call
path the regex size decreases except when a `star` re-enters itself,
which strictly consumes input. -/
def reFuel (r : Regex) (s : List Char) : Nat :=
  (r.size + 2) * (s.length + 2)

/-- End position of the leftmost match of `r` at the start of `w`, as
`re.match(r, w).end()`; `none` when `re.match` returns no match. -/
def pyMatchEnd (r : Regex) (w : String) : Option Nat :=
  match reMatchesF (reFuel r w.data) r w.data with
  | [] => none
  | rem :: _ => some (w.length - rem.length)

/-- Read one literal member of a character class: a plain character or
an escaped punctuation character.  An escaped letter or digit is a
Python class escape (`\d`, `\w`, backspace, ...) outside the modelled
fragment and is rejected; a bare `]` ends the class and is rejected
here. -/
def classChar : List Char → Option (Char × List Char)
  | '\\' :: d :: rest => if d.isAlphanum then none else some (d, rest)
  | ']' :: _ => none
  | c :: rest => some (c, rest)
  | [] => none

/-- Parse the items of a character class after `[`, up to `]`.  A
reversed range (which Python rejects with `re.error`) and a trailing
`-` (which Python reads as a literal, outside the fragment) are
rejected. -/
def parseClsItems : Nat → List Char → Option (List (Char × Char) × List Char)
  | 0, _ => none
  | fuel+1, cs =>
    match cs with
    | [] => none
    | ']' :: rest => some ([], rest)
    | _ =>
      match classChar cs with
      | none => none
      | some (lo, rest2) =>
        match rest2 with
        | '-' :: rest3 =>
          match rest3 with
          | ']' :: _ => none
          | _ =>
            match classChar rest3 with
            | none => none
            | some (hi, rest4) =>
              if hi < lo then none
              else
                match parseClsItems fuel rest4 with
                | some (ranges, rest5) => some ((lo, hi) :: ranges, rest5)
                | none => none
        | _ =>
          match parseClsItems fuel rest2 with
          | some (ranges, rest4) => some ((lo, lo) :: ranges, rest4)
          | none => none

/-- Parse one atom of a pattern.  An escaped punctuation character is
that literal character, as in Python; an escaped letter or digit (the
Python escape classes `\d`, `\w`, `\s`, `\n`, word boundaries,
backreferences, ...) is outside the modelled fragment and rejected, as
are groups, `?`, brace repetition, a mid-pattern `^`, and the empty
classes Python itself rejects. -/
def parseAtomStep (cs : List Char) : Option (Regex × List Char) :=
  match cs with
  | '\\' :: c :: rest => if c.isAlphanum then none else some (Regex.chr c, rest)
  | '[' :: '^' :: rest =>
    match parseClsItems (rest.length + 1) rest with
    | some ([], _) => none
    | some (ranges, rest2) => some (Regex.cls true ranges, rest2)
    | none => none
  | '[' :: rest =>
    match parseClsItems (rest.length + 1) rest with
    | some ([], _) => none
    | some (ranges, rest2) => some (Regex.cls false ranges, rest2)
    | none => none
  | '.' :: rest => some (Regex.anyChr, rest)
  | '$' :: rest => some (Regex.endAnchor, rest)
  | c :: rest =>
    if c ∈ ['|', '*', '+', '?', '(', ')', '[', ']', '^', '$', '\\', '\x7b', '\x7d'] then
      none
    else some (Regex.chr c, rest)
  | [] => none

/-- Apply a `*` or `+` postfix operator if present.  Python rejects a
repeated anchor (`$*`, `$+`) with `re.error` (nothing to repeat); so
does the compiler. -/
def parsePostfixStep (r : Regex) (cs : List Char) : Option (Regex × List Char) :=
  match cs with
  | '*' :: rest => if r = Regex.endAnchor then none else some (Regex.star r, rest)
  | '+' :: rest => if r = Regex.endAnchor then none else some (Regex.plus r, rest)
  | _ => some (r, cs)

/-- Sequence two regexes, dropping a trailing empty regex. -/
def seqSmart (a b : Regex) : Regex :=
  match b with
  | Regex.emptyRe => a
  | _ => Regex.seq a b

/-- Parse a concatenation of atoms, stopping at `|` or the end. -/
def parseCatStep : Nat → List Char → Option (Regex × List Char)
  | 0, _ => none
  | fuel+1, cs =>
    match cs with
    | [] => some (Regex.emptyRe, [])
    | '|' :: _ => some (Regex.emptyRe, cs)
    | _ =>
      match parseAtomStep cs with
      | none => none
      | some (a, rest) =>
        match parsePostfixStep a rest with
        | none => none
        | some (a2, rest2) =>
          match parseCatStep fuel rest2 with
          | none => none
          | some (b, rest3) => some (seqSmart a2 b, rest3)

/-- Parse an alternation, right-nested so the left branch is explored
first by the matcher, as in Python. -/
def parseAltStep : Nat → List Char → Option (Regex × List Char)
  | 0, _ => none
  | fuel+1, cs =>
    match parseCatStep (cs.length + 1) cs with
    | none => none
    | some (a, rest) =>
      match rest with
      | '|' :: rest2 =>
        match parseAltStep fuel rest2 with
        | none => none
        | some (b, rest3) => some (Regex.alt a b, rest3)
      | _ => some (a, rest)

/-- Compile a pattern string to a regex.  A leading `^` is discarded:
`re.match` anchors at the start of the string already.  The compiler
accepts only patterns on which the matcher reproduces `re.match`;
everything else — unsupported constructs as well as the invalid
patterns Python rejects with `re.error` — yields `none`. -/
def compileRegex (pat : String) : Option Regex :=
  let cs :=
    match pat.data with
    | '^' :: rest => rest
    | cs0 => cs0
  match parseAltStep (cs.length + 1) cs with
  | some (r, []) => some r
  | _ => none

/-! ### Dict-as-association-list helpers -/

/-- Lookup in a Python-dict-like association list; when a key is bound
several times the last binding wins, as in `dict(pairs)`. -/
def dictGet (t : List (String × Option String)) (k : String) : Option (Option String) :=
  (t.reverse.find? (fun p => p.1 == k)).map (fun p => p.2)

/-! ### `match_rule` (environment.py lines 130-166) -/

/-- The loop body of `match_rule` for one `(key, value)` rule item.  A
`None` rule value requires the key to be absent from the target or
bound to `None`; a pattern value requires a present non-`None` target
value whose leftmost `re.match` ends exactly at the end of the value
(`m.end() == len(w)`).  A pattern outside the compiled fragment is
treated as not matching; this is a boundary of the model, not program
behaviour (for such patterns the source either raises `re.error` or
applies regex semantics the fragment does not represent), so every
theorem that quantifies over rules assumes the patterns compile. -/
def ruleEntryOk (target : List (String × Option String))
    (kv : String × Option String) : Bool :=
  match kv.2 with
  | none =>
    match dictGet target kv.1 with
    | some (some _) => false
    | _ => true
  | some pat =>
    match dictGet target kv.1 with
    | some (some w) =>
      match compileRegex pat with
      | some r => pyMatchEnd r w == some w.length
      | none => false
    | _ => false

/-- Transcription of `match_rule(target, rule)`: every key of `rule`
must match. -/
def match_rule (target : List (String × Option String))
    (rule : List (String × Option String)) : Bool :=
  rule.all (ruleEntryOk target)

/-- Generic Python-dict lookup on an association list (last binding wins). -/
def dictGetA {α : Type} (t : List (String × α)) (k : String) : Option α :=
  (t.reverse.find? (fun p => p.1 == k)).map (fun p => p.2)

/-! ### Environment identity (environment.py lines 169-187, 448-460) -/

/-- Lexicographic comparison of character lists by code point, the
comparison Python uses on strings.  (A structural definition is used so
that proofs can evaluate it; Mathlib's `String` order is built on
iterator recursion, which the kernel cannot unfold.) -/
def charListLt : List Char → List Char → Bool
  | [], [] => false
  | [], _ :: _ => true
  | _ :: _, [] => false
  | a :: as, b :: bs =>
    if a < b then true
    else if b < a then false
    else charListLt as bs

theorem charListLt_trans : ∀ {a b c : List Char},
    charListLt a b = true → charListLt b c = true → charListLt a c = true
  | [], [], _, hab, _ => by simp [charListLt] at hab
  | [], _ :: _, [], _, hbc => by simp [charListLt] at hbc
  | [], _ :: _, _ :: _, _, _ => rfl
  | _ :: _, [], _, hab, _ => by simp [charListLt] at hab
  | _ :: _, _ :: _, [], _, hbc => by simp [charListLt] at hbc
  | a :: as, b :: bs, c :: cs, hab, hbc => by
    simp only [charListLt] at hab hbc ⊢
    rcases lt_trichotomy a b with h1 | h1 | h1
    · rcases lt_trichotomy b c with h2 | h2 | h2
      · simp [lt_trans h1 h2]
      · subst h2
        simp [h1]
      · rw [if_neg (lt_asymm h2), if_pos h2] at hbc
        exact absurd hbc (by simp)
    · subst h1
      rw [if_neg (lt_irrefl a), if_neg (lt_irrefl a)] at hab
      rcases lt_trichotomy a c with h2 | h2 | h2
      · simp [h2]
      · subst h2
        rw [if_neg (lt_irrefl a), if_neg (lt_irrefl a)] at hbc ⊢
        exact charListLt_trans hab hbc
      · rw [if_neg (lt_asymm h2), if_pos h2] at hbc
        exact absurd hbc (by simp)
    · rw [if_neg (lt_asymm h1), if_pos h1] at hab
      exact absurd hab (by simp)

theorem charListLt_not_both : ∀ {a b : List Char},
    charListLt a b = true → charListLt b a = true → False
  | [], [], hab, _ => by simp [charListLt] at hab
  | [], _ :: _, _, hba => by simp [charListLt] at hba
  | _ :: _, [], hab, _ => by simp [charListLt] at hab
  | a :: as, b :: bs, hab, hba => by
    simp only [charListLt] at hab hba
    rcases lt_trichotomy a b with h1 | h1 | h1
    · rw [if_neg (lt_asymm h1), if_pos h1] at hba
      exact absurd hba (by simp)
    · subst h1
      rw [if_neg (lt_irrefl a), if_neg (lt_irrefl a)] at hab hba
      exact charListLt_not_both hab hba
    · rw [if_neg (lt_asymm h1), if_pos h1] at hab
      exact absurd hab (by simp)

theorem charListLt_total : ∀ {a b : List Char},
    charListLt a b = false → charListLt b a = false → a = b
  | [], [], _, _ => rfl
  | [], _ :: _, hab, _ => by simp [charListLt] at hab
  | _ :: _, [], _, hba => by simp [charListLt] at hba
  | a :: as, b :: bs, hab, hba => by
    simp only [charListLt] at hab hba
    rcases lt_trichotomy a b with h1 | h1 | h1
    · rw [if_pos h1] at hab
      exact absurd hab (by simp)
    · subst h1
      rw [if_neg (lt_irrefl a), if_neg (lt_irrefl a)] at hab hba
      rw [charListLt_total hab hba]
    · rw [if_pos h1] at hba
      exact absurd hba (by simp)

/-- Python `<` on strings. -/
def strLt (a b : String) : Bool := charListLt a.data b.data

/-- Python `<=` on strings: `a <= b` iff not `b < a`. -/
def strLe (a b : String) : Bool := !(strLt b a)

/-- Sorting order of requirement pairs, as Python `list.sort()` on
`(key, value)` tuples: by key, ties broken by value. -/
def reqLe (a b : String × String) : Prop :=
  (strLt a.1 b.1 || (a.1 == b.1 && strLe a.2 b.2)) = true

instance (a b : String × String) : Decidable (reqLe a b) := by
  unfold reqLe; infer_instance

theorem strLt_asymm {a b : String} (h : strLt a b = true) : strLt b a = false := by
  cases h2 : strLt b a
  · rfl
  · exact absurd (charListLt_not_both h h2) (by simp)

theorem strLt_irrefl (a : String) : strLt a a = false := by
  cases h : strLt a a
  · rfl
  · exact absurd (charListLt_not_both h h) (by simp)

theorem strLt_eq_of_both_false {a b : String} (h1 : strLt a b = false)
    (h2 : strLt b a = false) : a = b :=
  String.ext (charListLt_total h1 h2)

theorem strLt_trans {a b c : String} (h1 : strLt a b = true)
    (h2 : strLt b c = true) : strLt a c = true :=
  charListLt_trans h1 h2

theorem strLt_false_trans {a b c : String} (h1 : strLt b a = false)
    (h2 : strLt c b = false) : strLt c a = false := by
  cases hac : strLt c a
  · rfl
  · cases hab : strLt a b
    · have he : a = b := strLt_eq_of_both_false hab h1
      rw [he] at hac
      exact absurd hac (by simp [h2])
    · have : strLt c b = true := strLt_trans hac hab
      exact absurd this (by simp [h2])

instance : IsTotal (String × String) reqLe := by
  constructor
  intro a b
  unfold reqLe strLe
  cases h1 : strLt a.1 b.1
  · cases h2 : strLt b.1 a.1
    · have he : a.1 = b.1 := strLt_eq_of_both_false h1 h2
      cases h3 : strLt b.2 a.2
      · left
        simp [he, h3]
      · right
        simp [he, strLt_asymm h3]
    · right
      simp [h2]
  · left
    simp [h1]

instance : IsTrans (String × String) reqLe := by
  constructor
  intro a b c hab hbc
  unfold reqLe strLe at hab hbc ⊢
  simp only [Bool.or_eq_true, Bool.and_eq_true, beq_iff_eq, Bool.not_eq_true'] at hab hbc ⊢
  rcases hab with h1 | ⟨h1, h1v⟩
  · rcases hbc with h2 | ⟨h2, h2v⟩
    · exact Or.inl (strLt_trans h1 h2)
    · exact Or.inl (h2 ▸ h1)
  · rcases hbc with h2 | ⟨h2, h2v⟩
    · exact Or.inl (h1 ▸ h2)
    · exact Or.inr ⟨h1.trans h2, strLt_false_trans h1v h2v⟩

instance : IsAntisymm (String × String) reqLe := by
  constructor
  intro a b hab hba
  unfold reqLe strLe at hab hba
  simp only [Bool.or_eq_true, Bool.and_eq_true, beq_iff_eq, Bool.not_eq_true'] at hab hba
  rcases hab with h1 | ⟨h1, h1v⟩
  · rcases hba with h2 | ⟨h2, h2v⟩
    · exact absurd (charListLt_not_both h1 h2) (by simp)
    · exact absurd (h2 ▸ h1 : strLt a.1 a.1 = true) (by simp [strLt_irrefl])
  · rcases hba with h2 | ⟨h2, h2v⟩
    · exact absurd (h1 ▸ h2 : strLt b.1 b.1 = true) (by simp [strLt_irrefl])
    · exact Prod.ext h1 (strLt_eq_of_both_false h2v h1v)

/-- `reqs.sort()` from `get_env_name`. -/
def sortReqs (l : List (String × String)) : List (String × String) :=
  l.insertionSort reqLe

/-- Modelled from the spec: `util.sanitize_filename` (not part of the
analysed file) replaces every character outside a filesystem-safe set
with a fixed substitute character. -/
def sanitize_filename (s : String) : String :=
  String.mk (s.data.map (fun c =>
    if c.isAlphanum || c = '_' || c = '-' || c = '.' then c else '_'))

/-- Transcription of `get_env_name(tool_name, python, requirements)`:
the `-`-join of the tool name (when non-empty), `py` plus the python
version, and one token per requirement in sorted order, sanitized.
An empty `tool_name` models both `None` and `""` (Python falsiness). -/
def get_env_name (tool_name : String) (python : String)
    (requirements : List (String × String)) : String :=
  let name0 : List String := if tool_name ≠ "" then [tool_name] else []
  let name1 := name0 ++ ["py" ++ python]
  let name2 := name1 ++ (sortReqs requirements).map (fun kv =>
    if kv.2 ≠ "" then kv.1 ++ kv.2 else kv.1)
  sanitize_filename (String.intercalate "-" name2)

/-- `Environment.hashname`: a fixed-width digest of the UTF-8 encoded
name.  The digest itself (`hashlib.md5(...).hexdigest()`) is an external
collaborator, abstracted as the `digest` argument. -/
def hashname (digest : String → String) (tool_name : String) (python : String)
    (requirements : List (String × String)) : String :=
  digest (get_env_name tool_name python requirements)

/-! ### Matrix expansion (environment.py lines 31-127) -/

/-- Configuration slice consumed by `iter_requirement_matrix`:
`conf.matrix` (axis values already in list form; the source also wraps
scalar values into one-element lists), `conf.exclude` and
`conf.include`. -/
structure MatrixConf where
  matrix : List (String × List (Option String))
  excludeRules : List (List (String × Option String))
  includeRules : List (List (String × Option String))

/-- `sorted(conf.matrix.keys())`. -/
def sortKeys (l : List String) : List String :=
  l.insertionSort (fun a b => strLe a b = true)

/-- `[''] if value == [] else value`: an empty axis value list is
normalized to the single empty-string value. -/
def normalizeAxis (v : List (Option String)) : List (Option String) :=
  if v = [] then [some ""] else v

/-- `itertools.product` over the axis value lists, in its iteration
order (later axes vary fastest). -/
def axesProduct : List (List (Option String)) → List (List (Option String))
  | [] => [[]]
  | v :: rest => v.flatMap (fun x => (axesProduct rest).map (fun combo => x :: combo))

/-- Python falsiness of the `environment_type` argument (`None` or `""`). -/
def isFalsy (s : Option String) : Bool := s.getD "" = ""

/-- `dict(zip(all_keys, combination))` updated with the platform keys. -/
def buildTarget (envType : Option String) (sysPlatform : String)
    (allKeys : List String) (combo : List (Option String)) :
    List (String × Option String) :=
  allKeys.zip combo ++ [("environment_type", envType), ("sys_platform", some sysPlatform)]

/-- `dict(item for item in zip(all_keys, combination) if item[1] is not None)`. -/
def yieldOfCombo (allKeys : List String) (combo : List (Option String)) :
    List (String × String) :=
  (allKeys.zip combo).filterMap (fun p => p.2.map (fun v => (p.1, v)))

/-- `sorted(conf.matrix.keys())` for a configuration. -/
def matrixKeys (conf : MatrixConf) : List String :=
  sortKeys (conf.matrix.map (fun p => p.1))

/-- The normalized per-axis value lists, in key order. -/
def matrixValues (conf : MatrixConf) : List (List (Option String)) :=
  (matrixKeys conf).map (fun k => normalizeAxis ((dictGetA conf.matrix k).getD []))

/-- `itertools.product([python], *values)`. -/
def matrixCombos (conf : MatrixConf) (python : String) : List (List (Option String)) :=
  axesProduct ([some python] :: matrixValues conf)

/-- The combinations for one python version surviving the exclude rules,
in iteration order.  `getEnvType` models `get_environment_class(conf,
python).tool_name`, with `none` meaning `EnvironmentUnavailable` (the
source then warns and skips the combination). -/
def acceptedCombos (envType : Option String) (getEnvType : Option String → Option String)
    (sysPlatform : String) (conf : MatrixConf) (python : String) :
    List (List (String × String)) :=
  let allKeys := "python" :: matrixKeys conf
  (matrixCombos conf python).filterMap (fun combo =>
    let target0 := buildTarget envType sysPlatform allKeys combo
    let target1 :=
      if isFalsy envType then
        match getEnvType ((dictGet target0 "python").join) with
        | none => none
        | some et => some (target0 ++ [("environment_type", some et)])
      else some target0
    match target1 with
    | none => none
    | some tgt =>
      if conf.excludeRules.any (fun r => match_rule tgt r) then none
      else some (yieldOfCombo allKeys combo))

/-- The per-python part of the expansion: the accepted combinations,
followed by the bare `dict(python=python)` fallback when the matrix was
entirely excluded and the environment was explicitly selected. -/
def matrixPythonPart (envType : Option String) (getEnvType : Option String → Option String)
    (sysPlatform : String) (conf : MatrixConf) (explicitSelection : Bool)
    (python : String) : List (List (String × String)) :=
  let accepted := acceptedCombos envType getEnvType sysPlatform conf python
  accepted ++ (if accepted.isEmpty && explicitSelection then [[("python", python)]] else [])

/-- `include.pop(key)` for dict-as-association-list. -/
def popKey (inc : List (String × Option String)) (k : String) :
    List (String × Option String) :=
  inc.filter (fun p => p.1 != k)

/-- `if include[key] is None: include.pop(key)` pruning, then the dict's
(key, value) pairs. -/
def pruneNone (inc : List (String × Option String)) : List (String × String) :=
  inc.filterMap (fun p => p.2.map (fun v => (p.1, v)))

/-- The include-rule part of the expansion.  An include without a
`python` key raises `UserError`; an unavailable environment type is
skipped with a warning; platform keys in the include are popped into a
match rule, and on a match the include minus its `None`-valued keys is
produced. -/
def processIncludes (envType : Option String) (getEnvType : Option String → Option String)
    (sysPlatform : String) :
    List (List (String × Option String)) → Except String (List (List (String × String)))
  | [] => Except.ok []
  | inc :: rest =>
    if inc.any (fun p => p.1 == "python") then
      let target0 : List (String × Option String) :=
        [("environment_type", envType), ("sys_platform", some sysPlatform)]
      let target1 :=
        if isFalsy envType then
          match getEnvType ((dictGet inc "python").join) with
          | none => none
          | some et => some (target0 ++ [("environment_type", some et)])
        else some target0
      match target1 with
      | none => processIncludes envType getEnvType sysPlatform rest
      | some tgt =>
        let rule := ["environment_type", "sys_platform"].filterMap
          (fun k => (dictGet inc k).map (fun v => (k, v)))
        let inc2 := popKey (popKey inc "environment_type") "sys_platform"
        if match_rule tgt rule then
          match processIncludes envType getEnvType sysPlatform rest with
          | Except.error e => Except.error e
          | Except.ok l => Except.ok (pruneNone inc2 :: l)
        else processIncludes envType getEnvType sysPlatform rest
    else
      Except.error "include rule does not specify Python version"

/-- Transcription of `iter_requirement_matrix(environment_type, pythons,
conf, explicit_selection)`, materialized into a list.  `getEnvType` and
`sysPlatform` stand for the module-level collaborators
(`get_environment_class` and `sys.platform`). -/
def iter_requirement_matrix (envType : Option String)
    (getEnvType : Option String → Option String) (sysPlatform : String)
    (pythons : List String) (conf : MatrixConf) (explicitSelection : Bool) :
    Except String (List (List (String × String))) :=
  let excludePart := pythons.flatMap
    (matrixPythonPart envType getEnvType sysPlatform conf explicitSelection)
  if explicitSelection then Except.ok excludePart
  else
    match processIncludes envType getEnvType sysPlatform conf.includeRules with
    | Except.error e => Except.error e
    | Except.ok l => Except.ok (excludePart ++ l)

/-! ### Install lifecycle (environment.py lines 328-708)

The `Environment` object's attributes split into an immutable
configuration slice (`EnvConfig`, set in `__init__` from `conf`) and the
mutable state touched by `install_project` (`EnvState`: the persisted
`asv-install-status.json` contents and the presence/value of the
`ASV_COMMIT`, `ASV_BUILD_DIR` and `ASV_BUILD_CACHE_DIR` entries of
`self._env_vars`).  External collaborators are parameters: the build
cache's `get_cache_dir`/`create_cache_dir` results (`Collab`) and the
success of each executed command batch (`CmdOutcome`; the repository
checkout is assumed to succeed, as the claims only concern the
uninstall/build/install steps).  Besides the successor state, running
`install_project` produces the ordered trace of externally visible
steps and whether it returned normally (`done = false` models an
exception propagating out of a command batch). -/

/-- `os.path.join` on already-absolute inputs. -/
def joinPath (a b : String) : String := a ++ "/" ++ b

/-- The install checksum: the fields of `_get_install_checksum`, whose
source value is the (injective) list of these six attributes. -/
structure Checksum where
  repo_subdir : String
  install_timeout : Nat
  project : String
  build_command : Option (List String)
  install_command : Option (List String)
  uninstall_command : Option (List String)
deriving DecidableEq, Repr

/-- Contents of `asv-install-status.json` as written by
`_set_installed_commit_hash`. -/
structure InstallStatus where
  commit_hash : Option String
  install_checksum : Checksum
deriving DecidableEq, Repr

/-- Configuration attributes of an `Environment` relevant to
`install_project`.  `path` stands for `self._path` (derived in the
source from `env_dir` and the identity hash); an empty `repo_subdir`
models both `None` and `""` (Python falsiness). -/
structure EnvConfig where
  env_dir : String
  repo_subdir : String
  install_timeout : Nat
  path : String
  project : String
  build_command : Option (List String)
  install_command : Option (List String)
  uninstall_command : Option (List String)
deriving DecidableEq, Repr

/-- `self._build_root`. -/
def EnvConfig.build_root (c : EnvConfig) : String := joinPath c.path "project"

/-- `_get_install_checksum`. -/
def EnvConfig.install_checksum (c : EnvConfig) : Checksum :=
  ⟨c.repo_subdir, c.install_timeout, c.project,
   c.build_command, c.install_command, c.uninstall_command⟩

/-- Mutable state of an `Environment`: the persisted install status file
(`none` when absent or unreadable) and the optional environment
variables. -/
structure EnvState where
  status_file : Option InstallStatus
  commit_var : Option String
  build_dir_var : Option String
  cache_dir_var : Option String
deriving DecidableEq, Repr

/-- `_set_commit_hash`: set or pop `ASV_COMMIT`. -/
def set_commit_hash (st : EnvState) (h : Option String) : EnvState :=
  { st with commit_var := h }

/-- `_set_build_dirs`: set or pop `ASV_BUILD_DIR` and
`ASV_BUILD_CACHE_DIR`. -/
def set_build_dirs (st : EnvState) (bd cd : Option String) : EnvState :=
  { st with build_dir_var := bd, cache_dir_var := cd }

/-- `_set_installed_commit_hash`: persist the given commit hash together
with the current install checksum. -/
def set_installed_commit_hash (c : EnvConfig) (st : EnvState) (h : Option String) :
    EnvState :=
  { st with status_file := some ⟨h, c.install_checksum⟩ }

/-- `_get_installed_commit_hash`: the recorded commit hash, unless the
status file is absent/unreadable or its recorded checksum differs from
the currently computed one, in which case nothing is installed. -/
def get_installed_commit_hash (c : EnvConfig) (st : EnvState) : Option String :=
  match st.status_file with
  | none => none
  | some d => if d.install_checksum = c.install_checksum then d.commit_hash else none

/-- Externally visible steps of `install_project`, in execution order. -/
inductive Event where
  | checkout (rev : String)
  | writeStatus (rev : Option String)
  | runUninstall
  | createCache (rev : String)
  | runBuild
  | runInstall
  | finalizeCache (rev : String)
deriving DecidableEq, Repr

/-- Build-cache collaborator responses (`build_cache.BuildCache`):
`get_cache_dir` returns the directory of a finalized entry or nothing,
`create_cache_dir` allocates and returns a fresh directory. -/
structure Collab where
  get_cache_dir : String → Option String
  create_cache_dir : String → String

/-- Success oracle for the three command batches an install can run. -/
structure CmdOutcome where
  uninstall_ok : Bool
  build_ok : Bool
  install_ok : Bool
deriving DecidableEq, Repr

/-- Result of an `install_project` call: successor state, trace of
steps, and whether the call returned normally. -/
structure InstallResult where
  state : EnvState
  trace : List Event
  done : Bool
deriving Repr

/-- Shared tail of `install_project` (source lines 648-655): run the
install commands, mark the cached build as valid, persist the new
install status. -/
def install_phase (c : EnvConfig) (ok : CmdOutcome) (st : EnvState)
    (tr : List Event) (commit_hash : String) : InstallResult :=
  let tr := tr ++ [Event.runInstall]
  if !ok.install_ok then ⟨st, tr, false⟩
  else
    let tr := tr ++ [Event.finalizeCache commit_hash]
    let st := set_installed_commit_hash c st (some commit_hash)
    let tr := tr ++ [Event.writeStatus (some commit_hash)]
    ⟨st, tr, true⟩

/-- Transcription of `Environment.install_project(conf, repo,
commit_hash)` (lines 614-655), together with `checkout_project` (607),
`_uninstall_project` (671), `_build_project` (688) and
`_install_project` (657). -/
def install_project (c : EnvConfig) (col : Collab) (ok : CmdOutcome)
    (st : EnvState) (commit_hash : String) : InstallResult :=
  let build_dir :=
    if c.repo_subdir ≠ "" then joinPath c.build_root c.repo_subdir
    else c.build_root
  let installed := get_installed_commit_hash c st
  if installed = some commit_hash then
    let st := set_commit_hash st installed
    let st := set_build_dirs st none none
    ⟨st, [], true⟩
  else
    let st := set_commit_hash st (some commit_hash)
    let tr := [Event.checkout commit_hash]
    let st := set_build_dirs st (some build_dir) none
    let st := set_installed_commit_hash c st none
    let tr := tr ++ [Event.writeStatus none, Event.runUninstall]
    if !ok.uninstall_ok then ⟨st, tr, false⟩
    else
      match col.get_cache_dir commit_hash with
      | some cache_dir =>
        let st := set_build_dirs st (some build_dir) (some cache_dir)
        install_phase c ok st tr commit_hash
      | none =>
        let cache_dir := col.create_cache_dir commit_hash
        let tr := tr ++ [Event.createCache commit_hash]
        let st := set_build_dirs st (some build_dir) (some cache_dir)
        let tr := tr ++ [Event.runBuild]
        if !ok.build_ok then ⟨st, tr, false⟩
        else install_phase c ok st tr commit_hash

/-! ### Command interpolation (environment.py lines 554-605)

Command templates are modelled as token lists, a literal token standing
for template text without placeholders and a variable token for a
`\x7bvariable_name\x7d` placeholder.  The filesystem is a parameter
(`isdir`, `listdir`).  `util.interpolate_command` itself lives outside
the analysed file and is modelled from the spec. -/

/-- One token of a command template. -/
inductive Tok where
  | lit (s : String)
  | var (name : String)
deriving DecidableEq, Repr

/-- The placeholder names a command template references. -/
def varsOfCmd (cmd : List Tok) : List String :=
  cmd.filterMap (fun t =>
    match t with
    | Tok.var n => some n
    | Tok.lit _ => none)

/-- Lower-case a string without the `ASV_` marker, as
`key[4:].lower()`. -/
def stripAsvLower (k : String) : String :=
  String.mk ((k.data.drop 4).map Char.toLower)

/-- The interpolation namespace: every environment variable except the
bare `ASV` marker, lower-cased with the prefix removed. -/
def interpolationVars (envVars : List (String × String)) : List (String × String) :=
  envVars.filterMap (fun p =>
    if p.1 == "ASV" then none else some (stripAsvLower p.1, p.2))

/-- `fn.lower().endswith('.whl')`. -/
def isWheelName (fn : String) : Bool :=
  (".whl".data).isSuffixOf (fn.data.map Char.toLower)

/-- The synthetic `wheel_file` variable: bound only when the
`build_cache_dir` variable is present, that directory exists, and it
holds exactly one wheel file. -/
def addWheelVar (isdir : String → Bool) (listdir : String → List String)
    (kw : List (String × String)) : List (String × String) :=
  match dictGetA kw "build_cache_dir" with
  | none => kw
  | some cache_dir =>
    if isdir cache_dir then
      match (listdir cache_dir).filter isWheelName with
      | [fn] => kw ++ [("wheel_file", joinPath cache_dir fn)]
      | _ => kw
    else kw

/-- Modelled from the spec: `util.interpolate_command` (not part of the
analysed file) substitutes each placeholder from the namespace and
fails with a descriptive error naming the missing variable and the
offending command when a placeholder cannot be resolved. -/
def interpolate_command (cmd : List Tok) (vars : List (String × String)) :
    Except (String × List Tok) (List String) :=
  match (varsOfCmd cmd).find? (fun n => (dictGetA vars n).isNone) with
  | some n => Except.error (n, cmd)
  | none => Except.ok (cmd.map (fun t =>
      match t with
      | Tok.lit s => s
      | Tok.var n => (dictGetA vars n).getD ""))

/-- Interpolate a command list in order, stopping at the first failing
command. -/
def interpCmdList (kw : List (String × String)) :
    List (List Tok) → Except (String × List Tok) (List (List String))
  | [] => Except.ok []
  | cmd :: rest =>
    match interpolate_command cmd kw with
    | Except.error e => Except.error e
    | Except.ok c =>
      match interpCmdList kw rest with
      | Except.error e => Except.error e
      | Except.ok l => Except.ok (c :: l)

/-- `_interpolate_commands`: build the namespace (with the synthetic
wheel variable) and interpolate every command, failing on the first
unresolvable one. -/
def interpolate_commands (envVars : List (String × String))
    (isdir : String → Bool) (listdir : String → List String)
    (commands : List (List Tok)) :
    Except (String × List Tok) (List (List String)) :=
  interpCmdList (addWheelVar isdir listdir (interpolationVars envVars)) commands

/-- `_interpolate_and_run_commands`: the commands actually executed
(interpolation of the whole list happens before the first execution, so
an interpolation error executes nothing), paired with the raised error
if any. -/
def interpolate_and_run_commands (envVars : List (String × String))
    (isdir : String → Bool) (listdir : String → List String)
    (commands : List (List Tok)) :
    List (List String) × Option (String × List Tok) :=
  match interpolate_commands envVars isdir listdir commands with
  | Except.error e => ([], some e)
  | Except.ok l => (l, none)

/-! ### Helper lemmas -/

theorem sortReqs_congr_perm {r1 r2 : List (String × String)} (h : r1.Perm r2) :
    sortReqs r1 = sortReqs r2 :=
  List.eq_of_perm_of_sorted
    ((List.perm_insertionSort _ r1).trans (h.trans (List.perm_insertionSort _ r2).symm))
    (List.sorted_insertionSort _ r1) (List.sorted_insertionSort _ r2)

theorem install_project_noop (c : EnvConfig) (col : Collab) (ok : CmdOutcome)
    (st : EnvState) (rev : String)
    (h0 : get_installed_commit_hash c st = some rev) :
    install_project c col ok st rev =
      ⟨{ st with commit_var := some rev, build_dir_var := none, cache_dir_var := none },
       [], true⟩ := by
  unfold install_project
  simp [h0, set_commit_hash, set_build_dirs]

theorem install_project_miss (c : EnvConfig) (col : Collab) (ok : CmdOutcome)
    (st : EnvState) (rev : String)
    (h0 : get_installed_commit_hash c st ≠ some rev)
    (hmiss : col.get_cache_dir rev = none)
    (hu : ok.uninstall_ok = true) (hb : ok.build_ok = true) (hi : ok.install_ok = true) :
    install_project c col ok st rev =
      ⟨{ status_file := some ⟨some rev, c.install_checksum⟩,
         commit_var := some rev,
         build_dir_var := some (if c.repo_subdir ≠ "" then joinPath c.build_root c.repo_subdir
           else c.build_root),
         cache_dir_var := some (col.create_cache_dir rev) },
       [Event.checkout rev, Event.writeStatus none, Event.runUninstall,
        Event.createCache rev, Event.runBuild, Event.runInstall,
        Event.finalizeCache rev, Event.writeStatus (some rev)], true⟩ := by
  unfold install_project install_phase
  simp [h0, hmiss, hu, hb, hi, set_commit_hash, set_build_dirs, set_installed_commit_hash]

theorem install_project_hit (c : EnvConfig) (col : Collab) (ok : CmdOutcome)
    (st : EnvState) (rev : String) (d : String)
    (h0 : get_installed_commit_hash c st ≠ some rev)
    (hhit : col.get_cache_dir rev = some d)
    (hu : ok.uninstall_ok = true) (hi : ok.install_ok = true) :
    install_project c col ok st rev =
      ⟨{ status_file := some ⟨some rev, c.install_checksum⟩,
         commit_var := some rev,
         build_dir_var := some (if c.repo_subdir ≠ "" then joinPath c.build_root c.repo_subdir
           else c.build_root),
         cache_dir_var := some d },
       [Event.checkout rev, Event.writeStatus none, Event.runUninstall,
        Event.runInstall, Event.finalizeCache rev, Event.writeStatus (some rev)], true⟩ := by
  unfold install_project install_phase
  simp [h0, hhit, hu, hi, set_commit_hash, set_build_dirs, set_installed_commit_hash]

theorem install_project_uninstall_fail (c : EnvConfig) (col : Collab) (ok : CmdOutcome)
    (st : EnvState) (rev : String)
    (h0 : get_installed_commit_hash c st ≠ some rev)
    (hu : ok.uninstall_ok = false) :
    install_project c col ok st rev =
      ⟨{ status_file := some ⟨none, c.install_checksum⟩,
         commit_var := some rev,
         build_dir_var := some (if c.repo_subdir ≠ "" then joinPath c.build_root c.repo_subdir
           else c.build_root),
         cache_dir_var := none },
       [Event.checkout rev, Event.writeStatus none, Event.runUninstall], false⟩ := by
  unfold install_project
  simp [h0, hu, set_commit_hash, set_build_dirs, set_installed_commit_hash]

theorem install_project_build_fail (c : EnvConfig) (col : Collab) (ok : CmdOutcome)
    (st : EnvState) (rev : String)
    (h0 : get_installed_commit_hash c st ≠ some rev)
    (hmiss : col.get_cache_dir rev = none)
    (hu : ok.uninstall_ok = true) (hb : ok.build_ok = false) :
    install_project c col ok st rev =
      ⟨{ status_file := some ⟨none, c.install_checksum⟩,
         commit_var := some rev,
         build_dir_var := some (if c.repo_subdir ≠ "" then joinPath c.build_root c.repo_subdir
           else c.build_root),
         cache_dir_var := some (col.create_cache_dir rev) },
       [Event.checkout rev, Event.writeStatus none, Event.runUninstall,
        Event.createCache rev, Event.runBuild], false⟩ := by
  unfold install_project
  simp [h0, hmiss, hu, hb, set_commit_hash, set_build_dirs, set_installed_commit_hash]

theorem install_project_install_fail_hit (c : EnvConfig) (col : Collab) (ok : CmdOutcome)
    (st : EnvState) (rev : String) (d : String)
    (h0 : get_installed_commit_hash c st ≠ some rev)
    (hhit : col.get_cache_dir rev = some d)
    (hu : ok.uninstall_ok = true) (hi : ok.install_ok = false) :
    install_project c col ok st rev =
      ⟨{ status_file := some ⟨none, c.install_checksum⟩,
         commit_var := some rev,
         build_dir_var := some (if c.repo_subdir ≠ "" then joinPath c.build_root c.repo_subdir
           else c.build_root),
         cache_dir_var := some d },
       [Event.checkout rev, Event.writeStatus none, Event.runUninstall,
        Event.runInstall], false⟩ := by
  unfold install_project install_phase
  simp [h0, hhit, hu, hi, set_commit_hash, set_build_dirs, set_installed_commit_hash]

theorem install_project_install_fail_miss (c : EnvConfig) (col : Collab) (ok : CmdOutcome)
    (st : EnvState) (rev : String)
    (h0 : get_installed_commit_hash c st ≠ some rev)
    (hmiss : col.get_cache_dir rev = none)
    (hu : ok.uninstall_ok = true) (hb : ok.build_ok = true) (hi : ok.install_ok = false) :
    install_project c col ok st rev =
      ⟨{ status_file := some ⟨none, c.install_checksum⟩,
         commit_var := some rev,
         build_dir_var := some (if c.repo_subdir ≠ "" then joinPath c.build_root c.repo_subdir
           else c.build_root),
         cache_dir_var := some (col.create_cache_dir rev) },
       [Event.checkout rev, Event.writeStatus none, Event.runUninstall,
        Event.createCache rev, Event.runBuild, Event.runInstall], false⟩ := by
  unfold install_project install_phase
  simp [h0, hmiss, hu, hb, hi, set_commit_hash, set_build_dirs, set_installed_commit_hash]

theorem install_trace_take3 (c : EnvConfig) (col : Collab) (ok : CmdOutcome)
    (st : EnvState) (rev : String)
    (h0 : get_installed_commit_hash c st ≠ some rev) :
    (install_project c col ok st rev).trace.take 3
      = [Event.checkout rev, Event.writeStatus none, Event.runUninstall] := by
  rcases ok with ⟨u, b, i⟩
  rcases hc : col.get_cache_dir rev with _ | d
  · cases u
    · rw [install_project_uninstall_fail c col _ st rev h0 rfl]
      rfl
    · cases b
      · rw [install_project_build_fail c col _ st rev h0 hc rfl rfl]
        rfl
      · cases i
        · rw [install_project_install_fail_miss c col _ st rev h0 hc rfl rfl rfl]
          rfl
        · rw [install_project_miss c col _ st rev h0 hc rfl rfl rfl]
          rfl
  · cases u
    · rw [install_project_uninstall_fail c col _ st rev h0 rfl]
      rfl
    · cases i
      · rw [install_project_install_fail_hit c col _ st rev d h0 hc rfl rfl]
        rfl
      · rw [install_project_hit c col _ st rev d h0 hc rfl rfl]
        rfl

theorem dictGetA_append_single {α : Type} (l : List (String × α)) (k : String) (v : α) :
    dictGetA (l ++ [(k, v)]) k = some v := by
  simp [dictGetA]

theorem addWheelVar_isSome_iff (isdir : String → Bool) (listdir : String → List String)
    (kw : List (String × String))
    (hw : dictGetA kw "wheel_file" = none) :
    (dictGetA (addWheelVar isdir listdir kw) "wheel_file").isSome = true ↔
      ∃ cd, dictGetA kw "build_cache_dir" = some cd ∧ isdir cd = true ∧
        ((listdir cd).filter isWheelName).length = 1 := by
  unfold addWheelVar
  rcases hb : dictGetA kw "build_cache_dir" with _ | cd
  · simp [hw]
  · cases hid : isdir cd
    · simp [hw, hid]
    · rcases hf : (listdir cd).filter isWheelName with _ | ⟨fn, rest⟩
      · simp [hw, hf]
      · cases rest with
        | nil =>
          simp [hb, hid, hf, dictGetA_append_single]
        | cons fn2 rest2 =>
          simp [hw, hf]

theorem find_first_wheel {p : String → Bool} : ∀ (l : List String),
    (∀ v ∈ l, p v = true → v = "wheel_file") → p "wheel_file" = true →
    "wheel_file" ∈ l → l.find? p = some "wheel_file" := by
  intro l
  induction l with
  | nil => intro _ _ hmem; cases hmem
  | cons x xs ih =>
    intro hall hp hmem
    cases hx : p x
    · rw [List.find?_cons_of_neg _ (by simp [hx])]
      have hxne : x ≠ "wheel_file" := fun he => by
        rw [he] at hx
        rw [hp] at hx
        cases hx
      apply ih
      · intro v hv hpv
        exact hall v (List.mem_cons_of_mem _ hv) hpv
      · exact hp
      · rcases List.mem_cons.mp hmem with he | hm
        · exact absurd he.symm hxne
        · exact hm
    · rw [List.find?_cons_of_pos _ hx]
      have := hall x (List.mem_cons_self _ _) hx
      rw [this]

theorem interpolate_command_ok (kw : List (String × String)) (cmd : List Tok)
    (hres : ∀ v ∈ varsOfCmd cmd, (dictGetA kw v).isSome = true) :
    interpolate_command cmd kw = Except.ok (cmd.map (fun t =>
      match t with
      | Tok.lit s => s
      | Tok.var n => (dictGetA kw n).getD "")) := by
  unfold interpolate_command
  have : (varsOfCmd cmd).find? (fun n => (dictGetA kw n).isNone) = none := by
    rw [List.find?_eq_none]
    intro v hv
    have := hres v hv
    simp only [Option.isNone, Option.isSome] at *
    cases h : dictGetA kw v
    · rw [h] at this
      cases this
    · simp
  rw [this]

theorem interpolate_command_wheel_err (kw : List (String × String)) (cmd : List Tok)
    (hres : ∀ v ∈ varsOfCmd cmd, v ≠ "wheel_file" → (dictGetA kw v).isSome = true)
    (hw : "wheel_file" ∈ varsOfCmd cmd)
    (hwn : dictGetA kw "wheel_file" = none) :
    interpolate_command cmd kw = Except.error ("wheel_file", cmd) := by
  unfold interpolate_command
  have : (varsOfCmd cmd).find? (fun n => (dictGetA kw n).isNone) = some "wheel_file" := by
    apply find_first_wheel
    · intro v hv hpv
      by_contra hne
      have := hres v hv hne
      rw [Option.isNone_iff_eq_none] at hpv
      rw [hpv] at this
      cases this
    · rw [Option.isNone_iff_eq_none]
      exact hwn
    · exact hw
  rw [this]

theorem interpCmdList_wheel_err (kw : List (String × String)) :
    ∀ (cmds : List (List Tok)),
    (∀ cmd ∈ cmds, ∀ v ∈ varsOfCmd cmd, v ≠ "wheel_file" →
      (dictGetA kw v).isSome = true) →
    (∃ cmd ∈ cmds, "wheel_file" ∈ varsOfCmd cmd) →
    dictGetA kw "wheel_file" = none →
    ∃ cmd0, cmd0 ∈ cmds ∧ "wheel_file" ∈ varsOfCmd cmd0 ∧
      interpCmdList kw cmds = Except.error ("wheel_file", cmd0) := by
  intro cmds
  induction cmds with
  | nil =>
    rintro _ ⟨cmd, hmem, _⟩ _
    cases hmem
  | cons cmd rest ih =>
    intro hres hex hwn
    by_cases hcw : "wheel_file" ∈ varsOfCmd cmd
    · refine ⟨cmd, List.mem_cons_self _ _, hcw, ?_⟩
      unfold interpCmdList
      rw [interpolate_command_wheel_err kw cmd
        (hres cmd (List.mem_cons_self _ _)) hcw hwn]
    · have hok := interpolate_command_ok kw cmd (by
        intro v hv
        by_cases hvw : v = "wheel_file"
        · exact absurd (hvw ▸ hv) hcw
        · exact hres cmd (List.mem_cons_self _ _) v hv hvw)
      have hex2 : ∃ c ∈ rest, "wheel_file" ∈ varsOfCmd c := by
        rcases hex with ⟨c, hc, hcw2⟩
        rcases List.mem_cons.mp hc with he | hm
        · exact absurd (he ▸ hcw2) hcw
        · exact ⟨c, hm, hcw2⟩
      rcases ih (fun c hc => hres c (List.mem_cons_of_mem _ hc)) hex2 hwn
        with ⟨cmd0, hmem0, hcw0, herr⟩
      refine ⟨cmd0, List.mem_cons_of_mem _ hmem0, hcw0, ?_⟩
      unfold interpCmdList
      rw [hok, herr]

/-! ### Concrete instances used by counterexamples and witnesses -/

/-- Matrix configuration `A=[1,2], B=[]` with the exclude rule
`\x7bA: "1"\x7d` and no includes. -/
def exampleConfC6 : MatrixConf :=
  { matrix := [("A", [some "1", some "2"]), ("B", [])]
    excludeRules := [[("A", some "1")]]
    includeRules := [] }

/-- Matrix configuration whose single exclude rule (the empty rule)
excludes every combination. -/
def exampleConfC7 : MatrixConf :=
  { matrix := [("A", [some "1"])]
    excludeRules := [[]]
    includeRules := [[("q", some "z")]] }

/-- Reference form of the exclude processing for a fixed (non-empty)
environment type: take the cartesian product of the normalized axes and
reject a combination exactly when some exclude rule matches its
target. -/
def acceptedCombosFixedType (et : String) (sysPlatform : String) (conf : MatrixConf)
    (python : String) : List (List (String × String)) :=
  (matrixCombos conf python).filterMap (fun combo =>
    if conf.excludeRules.any (fun r =>
        match_rule (buildTarget (some et) sysPlatform ("python" :: matrixKeys conf) combo) r)
    then none
    else some (yieldOfCombo ("python" :: matrixKeys conf) combo))

/-- A concrete environment configuration. -/
def cexConfig : EnvConfig :=
  ⟨"envs", "", 60, "envs/b57e1b5d8f0b0ee4f6465586d4f22aade8c91080", "proj",
   none, none, none⟩

/-- The same environment configuration with a different project name,
hence a different install checksum. -/
def cexConfig2 : EnvConfig :=
  ⟨"envs", "", 60, "envs/b57e1b5d8f0b0ee4f6465586d4f22aade8c91080", "proj2",
   none, none, none⟩

/-- A build cache with no finalized entry for any revision. -/
def cexCollabMiss : Collab := ⟨fun _ => none, fun rev => joinPath "cache" rev⟩

/-- A build cache holding a finalized entry for every revision. -/
def cexCollabHit : Collab := ⟨fun rev => some (joinPath "cache" rev), fun rev => joinPath "cache" rev⟩

/-- A fresh environment: no install status recorded, no optional
environment variables set. -/
def cexStateFresh : EnvState := ⟨none, none, none, none⟩

/-- An environment whose status file records revision `rev1` under
`cexConfig`'s checksum. -/
def cexStateInstalled : EnvState :=
  ⟨some ⟨some "rev1", cexConfig.install_checksum⟩, none, none, none⟩

/-- All command batches succeed. -/
def okAll : CmdOutcome := ⟨true, true, true⟩

/-- Environment variables of an environment mid-install, with the build
cache directory bound. -/
def cexEnvVars : List (String × String) :=
  [("ASV", "true"), ("ASV_PROJECT", "proj"), ("ASV_BUILD_CACHE_DIR", "cdir")]

/-- A filesystem on which only `cdir` is a directory and it holds two
wheel files (an ambiguous match). -/
def cexIsdir (d : String) : Bool := d == "cdir"

/-- Directory listing of the two-wheel cache directory. -/
def cexListdir (_ : String) : List String := ["a.whl", "b.WHL"]

/-- An install command template referencing the wheel variable:
`python -mpip install \x7bwheel_file\x7d`. -/
def cexWheelCmd : List Tok :=
  [Tok.lit "python", Tok.lit "-mpip", Tok.lit "install", Tok.var "wheel_file"]

/-! ### Claim theorems -/

/-- C1: starting from a state where the requested revision is not the
recorded installed one and the build cache has no entry for it, a first
`install_project` call performs the work and a second call with the same
configuration is a no-op (its trace is empty), so checkout, build and
install each happen exactly once across the two calls; and when any
checksum-relevant configuration field changes (so the checksum
differs), `_get_installed_commit_hash` answers that nothing is
installed and the next call reinstalls from scratch even for the same
revision. -/
theorem install_project_idempotent_and_checksum (c c2 : EnvConfig)
    (col col2 col3 : Collab) (ok2 ok3 : CmdOutcome) (st : EnvState) (rev : String)
    (h0 : get_installed_commit_hash c st ≠ some rev)
    (hmiss : col.get_cache_dir rev = none) :
    (install_project c col2 ok2
        (install_project c col ⟨true, true, true⟩ st rev).state rev).trace = [] ∧
    ((install_project c col ⟨true, true, true⟩ st rev).trace
      ++ (install_project c col2 ok2
            (install_project c col ⟨true, true, true⟩ st rev).state rev).trace).count
        (Event.checkout rev) = 1 ∧
    ((install_project c col ⟨true, true, true⟩ st rev).trace
      ++ (install_project c col2 ok2
            (install_project c col ⟨true, true, true⟩ st rev).state rev).trace).count
        Event.runBuild = 1 ∧
    ((install_project c col ⟨true, true, true⟩ st rev).trace
      ++ (install_project c col2 ok2
            (install_project c col ⟨true, true, true⟩ st rev).state rev).trace).count
        Event.runInstall = 1 ∧
    (c2.install_checksum ≠ c.install_checksum →
      get_installed_commit_hash c2 (install_project c col ⟨true, true, true⟩ st rev).state
        = none ∧
      (install_project c2 col3 ok3
          (install_project c col ⟨true, true, true⟩ st rev).state rev).trace.take 3
        = [Event.checkout rev, Event.writeStatus none, Event.runUninstall]) := by
  have h1 := install_project_miss c col ⟨true, true, true⟩ st rev h0 hmiss rfl rfl rfl
  have hs : get_installed_commit_hash c
      (install_project c col ⟨true, true, true⟩ st rev).state = some rev := by
    rw [h1]
    simp [get_installed_commit_hash]
  have h2 := install_project_noop c col2 ok2 _ rev hs
  refine ⟨by rw [h2], ?_, ?_, ?_, fun hcs => ⟨?_, ?_⟩⟩
  · rw [h2, h1]
    simp [List.count_cons]
  · rw [h2, h1]
    simp [List.count_cons]
  · rw [h2, h1]
    simp [List.count_cons]
  · rw [h1]
    simp [get_installed_commit_hash, Ne.symm hcs]
  · apply install_trace_take3
    rw [h1]
    simp [get_installed_commit_hash, Ne.symm hcs]

/-- C1 witness: the theorem applied to a fresh environment, a cold
cache and revision `rev1`. -/
theorem install_project_idempotent_and_checksum_witness :
    get_installed_commit_hash cexConfig cexStateFresh ≠ some "rev1" ∧
    cexCollabMiss.get_cache_dir "rev1" = none ∧
    (install_project cexConfig cexCollabMiss okAll
        (install_project cexConfig cexCollabMiss ⟨true, true, true⟩
          cexStateFresh "rev1").state "rev1").trace = [] :=
  ⟨by decide, rfl,
   (install_project_idempotent_and_checksum cexConfig cexConfig2 cexCollabMiss
      cexCollabMiss cexCollabMiss okAll okAll cexStateFresh "rev1"
      (by decide) rfl).1⟩

/-- C2: on every non-no-op `install_project` call the status file is
rewritten to record no revision (trace index 1) before the first
command batch runs (index 2, no command occurs earlier); if any command
batch raises, the resulting state reports nothing installed, no status
naming the target revision was written, and a retry starts from
scratch; the status naming the target revision is written only at the
very end, after the install commands succeeded. -/
theorem install_status_invalidated_before_commands (c : EnvConfig)
    (col col2 : Collab) (ok ok2 : CmdOutcome) (st : EnvState) (rev : String)
    (h0 : get_installed_commit_hash c st ≠ some rev) :
    ((install_project c col ok st rev).trace.take 3
       = [Event.checkout rev, Event.writeStatus none, Event.runUninstall]) ∧
    (∀ e ∈ (install_project c col ok st rev).trace.take 2,
       e ≠ Event.runUninstall ∧ e ≠ Event.runBuild ∧ e ≠ Event.runInstall) ∧
    ((install_project c col ok st rev).done = false →
       get_installed_commit_hash c (install_project c col ok st rev).state = none ∧
       Event.writeStatus (some rev) ∉ (install_project c col ok st rev).trace) ∧
    ((install_project c col ok st rev).done = true →
       ∃ t, (install_project c col ok st rev).trace
           = t ++ [Event.runInstall, Event.finalizeCache rev, Event.writeStatus (some rev)] ∧
         Event.writeStatus (some rev) ∉ t) ∧
    ((install_project c col ok st rev).done = false →
       (install_project c col2 ok2 (install_project c col ok st rev).state rev).trace.take 3
         = [Event.checkout rev, Event.writeStatus none, Event.runUninstall]) := by
  rcases ok with ⟨u, b, i⟩
  rcases hc : col.get_cache_dir rev with _ | d
  · cases u
    · rw [install_project_uninstall_fail c col _ st rev h0 rfl]
      refine ⟨rfl, by simp, fun _ => ⟨by simp [get_installed_commit_hash], by simp⟩,
        by simp, fun _ => install_trace_take3 _ _ _ _ _ (by simp [get_installed_commit_hash])⟩
    · cases b
      · rw [install_project_build_fail c col _ st rev h0 hc rfl rfl]
        refine ⟨rfl, by simp, fun _ => ⟨by simp [get_installed_commit_hash], by simp⟩,
          by simp, fun _ => install_trace_take3 _ _ _ _ _ (by simp [get_installed_commit_hash])⟩
      · cases i
        · rw [install_project_install_fail_miss c col _ st rev h0 hc rfl rfl rfl]
          refine ⟨rfl, by simp, fun _ => ⟨by simp [get_installed_commit_hash], by simp⟩,
            by simp, fun _ => install_trace_take3 _ _ _ _ _ (by simp [get_installed_commit_hash])⟩
        · rw [install_project_miss c col _ st rev h0 hc rfl rfl rfl]
          refine ⟨rfl, by simp, by simp, fun _ => ?_, by simp⟩
          exact ⟨[Event.checkout rev, Event.writeStatus none, Event.runUninstall,
                  Event.createCache rev, Event.runBuild], by simp⟩
  · cases u
    · rw [install_project_uninstall_fail c col _ st rev h0 rfl]
      refine ⟨rfl, by simp, fun _ => ⟨by simp [get_installed_commit_hash], by simp⟩,
        by simp, fun _ => install_trace_take3 _ _ _ _ _ (by simp [get_installed_commit_hash])⟩
    · cases i
      · rw [install_project_install_fail_hit c col _ st rev d h0 hc rfl rfl]
        refine ⟨rfl, by simp, fun _ => ⟨by simp [get_installed_commit_hash], by simp⟩,
          by simp, fun _ => install_trace_take3 _ _ _ _ _ (by simp [get_installed_commit_hash])⟩
      · rw [install_project_hit c col _ st rev d h0 hc rfl rfl]
        refine ⟨rfl, by simp, by simp, fun _ => ?_, by simp⟩
        exact ⟨[Event.checkout rev, Event.writeStatus none, Event.runUninstall], by simp⟩

/-- C2 witness: the theorem applied to a fresh environment, a cold
cache, a failing install command batch and revision `rev1`. -/
theorem install_status_invalidated_before_commands_witness :
    get_installed_commit_hash cexConfig cexStateFresh ≠ some "rev1" ∧
    (install_project cexConfig cexCollabMiss ⟨true, true, false⟩
        cexStateFresh "rev1").trace.take 3
      = [Event.checkout "rev1", Event.writeStatus none, Event.runUninstall] :=
  ⟨by decide,
   (install_status_invalidated_before_commands cexConfig cexCollabMiss cexCollabMiss
      ⟨true, true, false⟩ okAll cexStateFresh "rev1" (by decide)).1⟩

/-- C3 counterexample: on a fresh install with a cold cache the install
commands run before `finalize_cache_dir`, not after it as the claim
orders the steps. -/
theorem install_finalize_after_install_cex :
    (install_project cexConfig cexCollabMiss okAll cexStateFresh "rev1").trace
      = [Event.checkout "rev1", Event.writeStatus none, Event.runUninstall,
         Event.createCache "rev1", Event.runBuild, Event.runInstall,
         Event.finalizeCache "rev1", Event.writeStatus (some "rev1")] ∧
    (install_project cexConfig cexCollabMiss okAll cexStateFresh "rev1").trace.indexOf
        Event.runInstall
      < (install_project cexConfig cexCollabMiss okAll cexStateFresh "rev1").trace.indexOf
        (Event.finalizeCache "rev1") := by
  constructor
  · rfl
  · decide

/-- C3 (amended): when `install_project` runs for a revision with no
valid cache entry and every command batch succeeds, its steps occur in
this order: checkout the revision, invalidate the install status, run
the uninstall commands, allocate the cache directory, run the build
commands, run the install commands, finalize the cache directory, and
persist the new install status — the cache entry is finalized after the
install commands, not before. -/
theorem install_project_fresh_install_order (c : EnvConfig) (col : Collab)
    (ok : CmdOutcome) (st : EnvState) (rev : String)
    (h0 : get_installed_commit_hash c st ≠ some rev)
    (hmiss : col.get_cache_dir rev = none)
    (hu : ok.uninstall_ok = true) (hb : ok.build_ok = true)
    (hi : ok.install_ok = true) :
    (install_project c col ok st rev).trace
      = [Event.checkout rev, Event.writeStatus none, Event.runUninstall,
         Event.createCache rev, Event.runBuild, Event.runInstall,
         Event.finalizeCache rev, Event.writeStatus (some rev)] := by
  rw [install_project_miss c col ok st rev h0 hmiss hu hb hi]

/-- C3 witness: the amended order at a fresh environment and cold
cache. -/
theorem install_project_fresh_install_order_witness :
    get_installed_commit_hash cexConfig cexStateFresh ≠ some "rev1" ∧
    (install_project cexConfig cexCollabMiss okAll cexStateFresh "rev1").trace
      = [Event.checkout "rev1", Event.writeStatus none, Event.runUninstall,
         Event.createCache "rev1", Event.runBuild, Event.runInstall,
         Event.finalizeCache "rev1", Event.writeStatus (some "rev1")] :=
  ⟨by decide,
   install_project_fresh_install_order cexConfig cexCollabMiss okAll cexStateFresh "rev1"
     (by decide) rfl rfl rfl rfl⟩

/-- C4: two requirement mappings with the same (key, value) contents in
any order yield the same environment name and, for every digest
function, the same hash; and the name is the sanitized `-`-join of the
tool name (when non-empty), `py` plus the runtime version, and one
token per requirement in sorted key order, `key ++ value` when the
value is non-empty and `key` alone otherwise. -/
theorem env_name_hash_deterministic (tool py : String)
    (r1 r2 : List (String × String)) (h : r1.Perm r2) :
    get_env_name tool py r1 = get_env_name tool py r2 ∧
    (∀ digest : String → String,
      hashname digest tool py r1 = hashname digest tool py r2) ∧
    get_env_name tool py r1 = sanitize_filename (String.intercalate "-"
      ((if tool ≠ "" then [tool] else []) ++ ["py" ++ py] ++
        (sortReqs r1).map (fun kv => if kv.2 ≠ "" then kv.1 ++ kv.2 else kv.1))) := by
  have hs := sortReqs_congr_perm h
  refine ⟨?_, ?_, rfl⟩
  · unfold get_env_name
    rw [hs]
  · intro digest
    unfold hashname get_env_name
    rw [hs]

/-- C4 witness: two orderings of the same two requirements. -/
theorem env_name_hash_deterministic_witness :
    ([("numpy", "1.2"), ("six", "")] : List (String × String)).Perm
      [("six", ""), ("numpy", "1.2")] ∧
    get_env_name "conda" "3.9" [("numpy", "1.2"), ("six", "")]
      = get_env_name "conda" "3.9" [("six", ""), ("numpy", "1.2")] :=
  ⟨by decide,
   (env_name_hash_deterministic "conda" "3.9" [("numpy", "1.2"), ("six", "")]
      [("six", ""), ("numpy", "1.2")] (by decide)).1⟩

/-- C6: expanding axes `A=[1,2], B=[]` with exclude rule
`\x7bA: "1"\x7d` for the single runtime version `3.9` yields exactly one
requirement set, holding `python=3.9`, `A=2` and the normalized
`B=\x22\x22`; an empty axis value list normalizes to the single
empty-string value while a non-empty one is unchanged; and for a fixed
non-empty environment type the exclude processing is exactly: cartesian
product of the normalized axes, rejecting a combination iff some
exclude rule matches its target. -/
theorem matrix_expansion_example_and_excludes :
    iter_requirement_matrix (some "conda") (fun _ => none) "linux" ["3.9"]
        exampleConfC6 false
      = Except.ok [[("python", "3.9"), ("A", "2"), ("B", "")]] ∧
    normalizeAxis [] = [some ""] ∧
    (∀ v : List (Option String), v ≠ [] → normalizeAxis v = v) ∧
    (∀ (et : String) (g : Option String → Option String) (sys : String)
        (conf : MatrixConf) (p : String), et ≠ "" →
      acceptedCombos (some et) g sys conf p = acceptedCombosFixedType et sys conf p) := by
  refine ⟨rfl, rfl, ?_, ?_⟩
  · intro v hv
    simp [normalizeAxis, hv]
  · intro et g sys conf p het
    unfold acceptedCombos acceptedCombosFixedType
    have hf : isFalsy (some et) = false := by
      simp [isFalsy, het]
    simp [hf]

/-- C6 witness: the exclude-processing characterization applied to the
example configuration. -/
theorem matrix_expansion_example_and_excludes_witness :
    ("conda" : String) ≠ "" ∧
    acceptedCombos (some "conda") (fun _ => none) "linux" exampleConfC6 "3.9"
      = acceptedCombosFixedType "conda" "linux" exampleConfC6 "3.9" :=
  ⟨by decide,
   matrix_expansion_example_and_excludes.2.2.2 "conda" (fun _ => none) "linux"
     exampleConfC6 "3.9" (by decide)⟩

/-- C7: with `explicit_selection` true, a runtime version whose matrix
is entirely excluded contributes exactly the one bare
`\x7bpython: version\x7d` set; the whole expansion is then just the
per-python exclude parts, so the include rules are skipped entirely
(the result does not depend on them); with `explicit_selection` false a
fully excluded runtime version contributes nothing. -/
theorem explicit_selection_bare_fallback :
    (∀ (envT : Option String) (g : Option String → Option String) (sys : String)
        (conf : MatrixConf) (p : String),
      acceptedCombos envT g sys conf p = [] →
      matrixPythonPart envT g sys conf true p = [[("python", p)]]) ∧
    (∀ (envT : Option String) (g : Option String → Option String) (sys : String)
        (pythons : List String) (conf : MatrixConf),
      iter_requirement_matrix envT g sys pythons conf true
        = Except.ok (pythons.flatMap (matrixPythonPart envT g sys conf true))) ∧
    (∀ (envT : Option String) (g : Option String → Option String) (sys : String)
        (pythons : List String) (m : List (String × List (Option String)))
        (ex inc1 inc2 : List (List (String × Option String))),
      iter_requirement_matrix envT g sys pythons ⟨m, ex, inc1⟩ true
        = iter_requirement_matrix envT g sys pythons ⟨m, ex, inc2⟩ true) ∧
    (∀ (envT : Option String) (g : Option String → Option String) (sys : String)
        (conf : MatrixConf) (p : String),
      acceptedCombos envT g sys conf p = [] →
      matrixPythonPart envT g sys conf false p = []) := by
  refine ⟨?_, ?_, ?_, ?_⟩
  · intro envT g sys conf p hx
    unfold matrixPythonPart
    rw [hx]
    rfl
  · intro envT g sys pythons conf
    rfl
  · intro envT g sys pythons m ex inc1 inc2
    rfl
  · intro envT g sys conf p hx
    unfold matrixPythonPart
    rw [hx]
    rfl

/-- C7 witness: the bare fallback for a configuration whose empty
exclude rule excludes everything. -/
theorem explicit_selection_bare_fallback_witness :
    acceptedCombos (some "conda") (fun _ => none) "linux" exampleConfC7 "3.9" = [] ∧
    matrixPythonPart (some "conda") (fun _ => none) "linux" exampleConfC7 true "3.9"
      = [[("python", "3.9")]] :=
  ⟨by decide,
   explicit_selection_bare_fallback.1 (some "conda") (fun _ => none) "linux"
     exampleConfC7 "3.9" (by decide)⟩

/-- C8: provided the environment's own namespace does not bind
`wheel_file`, the synthetic `wheel_file` variable is bound after the
scan iff the `build_cache_dir` variable is present, that directory
exists, and it holds exactly one file whose lower-cased name ends in
`.whl`; and when it is not bound, any command list in which every other
referenced variable resolves but some command references `wheel_file`
fails interpolation with an error naming `wheel_file` and an offending
command that references it, with no command of the list executed. -/
theorem wheel_file_binding_and_error (envVars : List (String × String))
    (isdir : String → Bool) (listdir : String → List String)
    (commands : List (List Tok))
    (hw : dictGetA (interpolationVars envVars) "wheel_file" = none) :
    ((dictGetA (addWheelVar isdir listdir (interpolationVars envVars))
        "wheel_file").isSome = true ↔
      ∃ cd, dictGetA (interpolationVars envVars) "build_cache_dir" = some cd ∧
        isdir cd = true ∧ ((listdir cd).filter isWheelName).length = 1) ∧
    (dictGetA (addWheelVar isdir listdir (interpolationVars envVars))
        "wheel_file" = none →
      (∀ cmd ∈ commands, ∀ v ∈ varsOfCmd cmd, v ≠ "wheel_file" →
        (dictGetA (addWheelVar isdir listdir (interpolationVars envVars)) v).isSome
          = true) →
      (∃ cmd ∈ commands, "wheel_file" ∈ varsOfCmd cmd) →
      ∃ cmd0, cmd0 ∈ commands ∧ "wheel_file" ∈ varsOfCmd cmd0 ∧
        interpolate_commands envVars isdir listdir commands
          = Except.error ("wheel_file", cmd0) ∧
        (interpolate_and_run_commands envVars isdir listdir commands).1 = []) := by
  refine ⟨addWheelVar_isSome_iff isdir listdir _ hw, ?_⟩
  intro hwn hres hex
  rcases interpCmdList_wheel_err (addWheelVar isdir listdir (interpolationVars envVars))
    commands hres hex hwn with ⟨cmd0, h1, h2, h3⟩
  refine ⟨cmd0, h1, h2, h3, ?_⟩
  unfold interpolate_and_run_commands interpolate_commands
  rw [h3]

/-- C8 witness: an ambiguous cache directory (two wheels) and an
install command referencing the wheel variable. -/
theorem wheel_file_binding_and_error_witness :
    dictGetA (interpolationVars cexEnvVars) "wheel_file" = none ∧
    dictGetA (addWheelVar cexIsdir cexListdir (interpolationVars cexEnvVars))
      "wheel_file" = none ∧
    ∃ cmd0, cmd0 ∈ [cexWheelCmd] ∧ "wheel_file" ∈ varsOfCmd cmd0 ∧
      interpolate_commands cexEnvVars cexIsdir cexListdir [cexWheelCmd]
        = Except.error ("wheel_file", cmd0) ∧
      (interpolate_and_run_commands cexEnvVars cexIsdir cexListdir [cexWheelCmd]).1 = [] :=
  ⟨by decide, by decide,
   (wheel_file_binding_and_error cexEnvVars cexIsdir cexListdir [cexWheelCmd]
      (by decide)).2 (by decide) (by decide) (by decide)⟩

/-- C9 counterexample: a completed (normally returning) fresh install
leaves both `ASV_BUILD_DIR` and `ASV_BUILD_CACHE_DIR` set in the
namespace, refuting the claim that neither is present whenever
`install_project` returns. -/
theorem build_dir_vars_not_cleared_cex :
    (install_project cexConfig cexCollabMiss okAll cexStateFresh "rev1").done = true ∧
    (install_project cexConfig cexCollabMiss okAll cexStateFresh "rev1").state.build_dir_var
      ≠ none ∧
    (install_project cexConfig cexCollabMiss okAll cexStateFresh "rev1").state.cache_dir_var
      ≠ none := by
  refine ⟨rfl, ?_, ?_⟩ <;> decide

/-- C9 (amended): on the no-op path `install_project` clears both the
build-directory and build-cache-directory variables before returning;
after a completed non-no-op install both remain present, bound to the
build directory and the used cache directory respectively. -/
theorem install_project_build_dir_vars (c : EnvConfig) (col : Collab)
    (ok : CmdOutcome) (st : EnvState) (rev : String) :
    (get_installed_commit_hash c st = some rev →
      (install_project c col ok st rev).state.build_dir_var = none ∧
      (install_project c col ok st rev).state.cache_dir_var = none) ∧
    (get_installed_commit_hash c st ≠ some rev →
      (install_project c col ok st rev).done = true →
      (install_project c col ok st rev).state.build_dir_var
        = some (if c.repo_subdir ≠ "" then joinPath c.build_root c.repo_subdir
            else c.build_root) ∧
      ∃ d, (install_project c col ok st rev).state.cache_dir_var = some d) := by
  constructor
  · intro h0
    rw [install_project_noop c col ok st rev h0]
    exact ⟨rfl, rfl⟩
  · intro h0 hdone
    rcases ok with ⟨u, b, i⟩
    rcases hc : col.get_cache_dir rev with _ | d
    · cases u
      · rw [install_project_uninstall_fail c col _ st rev h0 rfl] at hdone
        exact absurd hdone (by simp)
      · cases b
        · rw [install_project_build_fail c col _ st rev h0 hc rfl rfl] at hdone
          exact absurd hdone (by simp)
        · cases i
          · rw [install_project_install_fail_miss c col _ st rev h0 hc rfl rfl rfl] at hdone
            exact absurd hdone (by simp)
          · rw [install_project_miss c col _ st rev h0 hc rfl rfl rfl]
            exact ⟨rfl, ⟨_, rfl⟩⟩
    · cases u
      · rw [install_project_uninstall_fail c col _ st rev h0 rfl] at hdone
        exact absurd hdone (by simp)
      · cases i
        · rw [install_project_install_fail_hit c col _ st rev d h0 hc rfl rfl] at hdone
          exact absurd hdone (by simp)
        · rw [install_project_hit c col _ st rev d h0 hc rfl rfl]
          exact ⟨rfl, ⟨_, rfl⟩⟩

/-- C9 witness: the no-op branch at an environment already holding
`rev1`. -/
theorem install_project_build_dir_vars_witness :
    get_installed_commit_hash cexConfig cexStateInstalled = some "rev1" ∧
    ((install_project cexConfig cexCollabMiss okAll cexStateInstalled "rev1").state.build_dir_var
        = none ∧
      (install_project cexConfig cexCollabMiss okAll cexStateInstalled "rev1").state.cache_dir_var
        = none) :=
  ⟨by decide,
   (install_project_build_dir_vars cexConfig cexCollabMiss okAll cexStateInstalled
      "rev1").1 (by decide)⟩

/-- C10: every non-no-op `install_project` call that returns normally
calls `finalize_cache_dir` for the requested revision exactly once, and
on the cache-hit path `create_cache_dir` is never called. -/
theorem finalize_cache_called_once (c : EnvConfig) (col : Collab) (ok : CmdOutcome)
    (st : EnvState) (rev : String)
    (h0 : get_installed_commit_hash c st ≠ some rev)
    (hdone : (install_project c col ok st rev).done = true) :
    (install_project c col ok st rev).trace.count (Event.finalizeCache rev) = 1 ∧
    (∀ d, col.get_cache_dir rev = some d →
      Event.createCache rev ∉ (install_project c col ok st rev).trace) := by
  rcases ok with ⟨u, b, i⟩
  rcases hc : col.get_cache_dir rev with _ | d
  · cases u
    · rw [install_project_uninstall_fail c col _ st rev h0 rfl] at hdone ⊢
      exact absurd hdone (by simp)
    · cases b
      · rw [install_project_build_fail c col _ st rev h0 hc rfl rfl] at hdone ⊢
        exact absurd hdone (by simp)
      · cases i
        · rw [install_project_install_fail_miss c col _ st rev h0 hc rfl rfl rfl] at hdone ⊢
          exact absurd hdone (by simp)
        · rw [install_project_miss c col _ st rev h0 hc rfl rfl rfl]
          constructor
          · simp [List.count_cons]
          · intro d hd
            exact absurd hd (by simp)
  · cases u
    · rw [install_project_uninstall_fail c col _ st rev h0 rfl] at hdone ⊢
      exact absurd hdone (by simp)
    · cases i
      · rw [install_project_install_fail_hit c col _ st rev d h0 hc rfl rfl] at hdone ⊢
        exact absurd hdone (by simp)
      · rw [install_project_hit c col _ st rev d h0 hc rfl rfl]
        constructor
        · simp [List.count_cons]
        · intro d2 hd
          simp

/-- C10 witness: the cache-hit path for revision `rev1`. -/
theorem finalize_cache_called_once_witness :
    get_installed_commit_hash cexConfig cexStateFresh ≠ some "rev1" ∧
    (install_project cexConfig cexCollabHit okAll cexStateFresh "rev1").done = true ∧
    (install_project cexConfig cexCollabHit okAll cexStateFresh "rev1").trace.count
      (Event.finalizeCache "rev1") = 1 :=
  ⟨by decide, rfl,
   (finalize_cache_called_once cexConfig cexCollabHit okAll cexStateFresh "rev1"
      (by decide) rfl).1⟩

end Asv
